import Mathlib

/-!
# Verification of the CRSLab KGSF core (dataloader, model decode paths, system stages)

Shallow embedding of the KGSF conversational-recommendation core:

* `crslab/model/crs/kgsf/kgsf.py` — forced / greedy / beam-search decoding,
  recommendation loss composition, parameter freezing;
* `crslab/data/dataloader/tgredial.py` — recommendation augmentation, negative
  sampling, batch padding;
* `crslab/system/kgsf.py` — stage step handlers.

Conventions of the embedding:

* token / entity / word ids are `ℕ`; tensor entries that the code treats as
  real numbers are `ℚ` (the spec explicitly places exact floating-point
  numerics out of scope);
* the neural sub-modules (graph encoders, transformer encoder/decoder, copy
  and gate heads) are opaque: a model state is represented by the function
  `stepLogits b p` giving the fused copy+generation logit vector produced at
  the last decoder position for batch element `b` when the decoder input so
  far is the token list `p`.  The transformer decoder is causal, so the logit
  row of position `i` of a forced pass equals `stepLogits` applied to the
  input truncated after position `i`; this is the same function greedy and
  beam decoding consume, which is exactly how the source shares the
  `conv_decoder`/`copy_norm`/`copy_output` pipeline between the three decode
  policies;
* Python-level failures (tensor `IndexError`, `torch.cat` on an empty list,
  truthiness of a multi-element tensor) are modelled with `Except String`;
* loops that the source writes with `for _ in range(n)` are structural
  recursion on `n`.
-/

namespace CRSLab

/-! ## Untyped tensor values

`PyT α` models a torch tensor with entries of type `α` as a nesting of
arrays, just deep enough to give integer indexing its Python semantics:
indexing an array out of range or indexing a 0-dimensional tensor raises
`IndexError`.  This is needed to state faithfully what
`_update_sequences` does with chained subscripts. -/

inductive PyT (α : Type) where
  | scalar : α → PyT α
  | arr : List (PyT α) → PyT α

/-- Python subscript `t[i]` on a tensor: out-of-range and 0-dim indexing raise. -/
def PyT.item? {α : Type} : PyT α → Nat → Except String (PyT α)
  | .scalar _, _ => .error "IndexError: invalid index of a 0-dim tensor"
  | .arr xs, i =>
    match xs.get? i with
    | some v => .ok v
    | none => .error "IndexError: index out of range"

mutual

/-- `t.reshape(-1)` flattening of a tensor into its list of entries. -/
def PyT.flat {α : Type} : PyT α → List α
  | .scalar x => [x]
  | .arr xs => PyT.flatList xs

/-- Flattening of a list of tensors, entries in order. -/
def PyT.flatList {α : Type} : List (PyT α) → List α
  | [] => []
  | t :: ts => t.flat ++ PyT.flatList ts

end

/-- Embed a 3-dimensional nested list as an untyped tensor. -/
def pyOf3 {α : Type} (t : List (List (List α))) : PyT α :=
  .arr (t.map (fun m => .arr (m.map (fun r => .arr (r.map PyT.scalar)))))

/-- Checked Python list subscript `l[i]`. -/
def lget {α : Type} (l : List α) (i : Nat) : Except String α :=
  match l.get? i with
  | some v => .ok v
  | none => .error "IndexError: list index out of range"

/-! ## Decoder model state -/

/-- Index of the first maximal element of a logit vector
(`argmax(dim=-1)` with first-occurrence tie-breaking). -/
def argmaxAux : List ℚ → Nat → Nat → ℚ → Nat
  | [], _, best, _ => best
  | x :: rest, i, best, bv =>
    if bv < x then argmaxAux rest (i + 1) i x else argmaxAux rest (i + 1) best bv

/-- `argmax` of a logit vector (0 on the empty vector). -/
def argmaxQ : List ℚ → Nat
  | [] => 0
  | x :: rest => argmaxAux rest 1 0 x

/-- Opaque state of `KGSFModel` as seen by the three decode policies: scalar
hyperparameters plus the fused logit pipeline
(`conv_decoder` → last position latent → `copy_norm`/`copy_output` masked by
`copy_mask`, summed with the tied-embedding generation logits).
`stepLogits b p` is that sum-logit vector for batch element `b` with decoder
input `p`.  `softmax0` abstracts `torch.nn.functional.softmax` applied with
its deprecated implicit dimension to a 3-dimensional tensor; the claims below
never depend on its values, only on the fact that it preserves the shape. -/
structure KGSFDecoder where
  batchSize : Nat
  startTok : Nat
  endTok : Nat
  responseTruncate : Nat
  stepLogits : Nat → List Nat → List ℚ
  softmax0 : List (List (List ℚ)) → List (List (List ℚ))

/-! ## Forced decoding (`_decode_forced_with_kg`) -/

/-- Decoder input of a forced pass:
`inputs = torch.cat((start, response[:, :-1]), dim=-1)` for one batch row. -/
def forcedInputs (M : KGSFDecoder) (response : List Nat) : List Nat :=
  M.startTok :: response.dropLast

/-- `_decode_forced_with_kg` for batch element `b`: the per-position sum-logit
rows and their argmax predictions.  Position `i`'s logit row is the last
position output of the causal decoder run on `inputs[0..i]`. -/
def decode_forced_with_kg (M : KGSFDecoder) (b : Nat) (response : List Nat) :
    List (List ℚ) × List Nat :=
  let inputs := forcedInputs M response
  let sumLogits := (List.range inputs.length).map (fun i => M.stepLogits b (inputs.take (i + 1)))
  (sumLogits, sumLogits.map argmaxQ)

/-- The (logit row, target token) pairs fed to
`conv_loss(logits.view(-1, V), response.view(-1))` for one batch row:
row `i` is supervised with response token `i`. -/
def supervisedPairs (M : KGSFDecoder) (b : Nat) (response : List Nat) :
    List (List ℚ × Nat) :=
  (decode_forced_with_kg M b response).1.zip response

/-! ## Greedy decoding (`_decode_greedy_with_kg`) -/

/-- Initial greedy state: one `[start]` row per batch element
(`self._starts(batch_size)`). -/
def startInputs (M : KGSFDecoder) : List (List Nat) :=
  List.replicate M.batchSize [M.startTok]

/-- One greedy step: every batch row is extended with the argmax of its
sum-logit vector (`preds = sum_logits.argmax(dim=-1)`,
`inputs = torch.cat((inputs, preds), dim=1)`). -/
def greedyStepFn (M : KGSFDecoder) (seqs : List (List Nat)) : List (List Nat) :=
  seqs.mapIdx (fun b s => s ++ [argmaxQ (M.stepLogits b s)])

/-- The greedy stopping test
`((inputs == self.end_token_idx).sum(dim=-1) > 0).sum().item() == batch_size`:
the number of rows containing the end token equals the batch size. -/
def greedyFinished (M : KGSFDecoder) (seqs : List (List Nat)) : Bool :=
  seqs.countP (fun s => decide (0 < s.count M.endTok)) = M.batchSize

/-- The greedy `for _ in range(self.response_truncate)` loop with its `break`:
returns the number of steps actually executed and the final rows. -/
def greedyLoop (M : KGSFDecoder) : Nat → List (List Nat) → Nat × List (List Nat)
  | 0, seqs => (0, seqs)
  | fuel + 1, seqs =>
    let seqs2 := greedyStepFn M seqs
    if greedyFinished M seqs2 then (1, seqs2)
    else
      let r := greedyLoop M fuel seqs2
      (r.1 + 1, r.2)

/-- `_decode_greedy_with_kg`: runs the loop, then `torch.cat(logits, dim=1)`,
which raises if no step was executed (empty tensor list).  Returns the number
of decode steps (= number of accumulated logit blocks) and the final `inputs`
rows, start token included. -/
def decode_greedy_with_kg (M : KGSFDecoder) : Except String (Nat × List (List Nat)) :=
  let r := greedyLoop M M.responseTruncate (startInputs M)
  if r.1 = 0 then .error "RuntimeError: torch.cat(): expected a non-empty list of Tensors"
  else .ok r

/-! ## Beam search (`decode_beam_search_with_kg` and its helpers)

The beam state mirrors the source exactly: per batch element a list of
candidates `[token sequence, logit history, cumulative score]`, where the
logit history starts out as the Python empty list (`none` here) and becomes a
tensor (`some`) after the first update. -/

/-- One beam-search candidate `[tokens, logit history, score]`. -/
structure BeamCand where
  tokens : List Nat
  hist : Option (List (List ℚ))
  score : ℚ

/-- `_initialize_beam_search`: `sequences = [[[list(), list(), 1.0]]] * batch_size`,
`inputs = self._starts(batch_size).long().reshape(1, batch_size, -1)`. -/
def initialize_beam_search (M : KGSFDecoder) :
    List (List BeamCand) × List (List (List Nat)) :=
  (List.replicate M.batchSize [⟨[], none, 1⟩],
   [List.replicate M.batchSize [M.startTok]])

/-- `_compute_logits`: the decoder is run on `inputs.reshape(-1, inputs.size(-1))`
and only the last position is kept, giving a tensor of shape `(rows, 1, V)`.
The source's `_repeat_inputs` (executed when `i == 1`) tiles the encoder
outputs `beam`-fold along the batch dimension; under this embedding the
decoder pipeline is `stepLogits`, and that tiling is captured by mapping
decoder row `r` to batch element `r % batchSize` — the row-to-element map of
`Tensor.repeat` — so the repetition needs no separate state. -/
def compute_logits (M : KGSFDecoder) (inputs : List (List (List Nat))) :
    List (List (List ℚ)) :=
  let rows := inputs.flatten
  rows.mapIdx (fun r p => [M.stepLogits (r % M.batchSize) p])

/-- Stable insertion of an (entry, index) pair into a list sorted by
descending entry, after any equal entries. -/
def insertDesc (p : ℚ × Nat) : List (ℚ × Nat) → List (ℚ × Nat)
  | [] => [p]
  | q :: rest => if q.1 < p.1 then p :: q :: rest else q :: insertDesc p rest

/-- `v.topk(k)` on a 1-dimensional tensor: the `k` largest entries with their
indices, sorted descending; raises when `k` exceeds the length. -/
def topkVec (v : List ℚ) (k : Nat) : Except String (List ℚ × List Nat) :=
  if k ≤ v.length then
    let sorted := (v.enum.map (fun p => (p.2, p.1))).foldl (fun acc p => insertDesc p acc) []
    .ok (((sorted.take k).map (·.1)), ((sorted.take k).map (·.2)))
  else .error "RuntimeError: selected index k out of range"

/-- `_get_top_k_probabilities`: `softmax(logits)` (implicit deprecated dim) then
`topk(beam, dim=-1)`, mapped over the two outer dimensions of the
`(rows, 1, V)` tensor.  Returns `(probs, preds)`. -/
def get_top_k_probabilities (M : KGSFDecoder) (logits : List (List (List ℚ)))
    (beam : Nat) : Except String (List (List (List ℚ)) × List (List (List Nat))) := do
  let probs := M.softmax0 logits
  let picked ← probs.mapM (fun mat => mat.mapM (fun v => topkVec v beam))
  .ok (picked.map (fun mat => mat.map (·.1)), picked.map (fun mat => mat.map (·.2)))

/-- Python truthiness of the stored logit history: the initial `list()` is
falsy; once it is a tensor, `bool(tensor)` raises unless the tensor has
exactly one element. -/
def pyTruthyHist : Option (List (List ℚ)) → Except String Bool
  | none => .ok false
  | some h =>
    if (h.map List.length).sum = 1 then .ok (decide (h.flatten ≠ [0]))
    else .error "RuntimeError: Boolean value of Tensor with more than one element is ambiguous"

/-- Scalar value of a 0-dimensional tensor. -/
def PyT.scalarVal : PyT ℚ → Except String ℚ
  | .scalar x => .ok x
  | .arr _ => .error "TypeError: only 0-dim tensors can be converted to scalars"

/-- One candidate tuple of `_update_sequences`, with Python's left-to-right
evaluation order:
`( torch.cat((inputs[n][j].reshape(-1), preds[n][j][0][k].reshape(-1))),
   torch.cat((sequences[j][n][1], logits[n][j][0].unsqueeze(0))) if sequences[j][n][1]
     else logits[n][j][0].unsqueeze(0),
   sequences[j][n][2] * probs[n][j][0][k] )`. -/
def mkCandidate (cand : BeamCand) (inputsPy predsPy : PyT Nat)
    (logitsPy probsPy : PyT ℚ) (n j k : Nat) : Except String BeamCand := do
  let a ← inputsPy.item? n >>= (·.item? j)
  let b ← predsPy.item? n >>= (·.item? j) >>= (·.item? 0) >>= (·.item? k)
  let toks := a.flat ++ b.flat
  let lrow ← logitsPy.item? n >>= (·.item? j) >>= (·.item? 0)
  let truthy ← pyTruthyHist cand.hist
  let hist := if truthy then cand.hist.getD [] ++ [lrow.flat] else [lrow.flat]
  let p ← probsPy.item? n >>= (·.item? j) >>= (·.item? 0) >>= (·.item? k)
  let pv ← p.scalarVal
  .ok ⟨toks, some hist, cand.score * pv⟩

/-- Stable insertion of a candidate into a list sorted by descending score. -/
def insertCand (p : BeamCand) : List BeamCand → List BeamCand
  | [] => [p]
  | q :: rest => if q.score < p.score then p :: q :: rest else q :: insertCand p rest

/-- Python's stable `sorted(candidates, key=lambda x: x[2], reverse=True)`. -/
def sortCandsDesc (l : List BeamCand) : List BeamCand :=
  l.foldl (fun acc c => insertCand c acc) []

/-- `_update_sequences`: for every batch element `j`, build the
`len(sequences[j]) × beam` candidate tuples (`n` outer, `k` inner) and keep
the top `beam` of them by cumulative score. -/
def update_sequences (sequences : List (List BeamCand))
    (inputs : List (List (List Nat))) (logits : List (List (List ℚ)))
    (probs : List (List (List ℚ))) (preds : List (List (List Nat)))
    (beam batchSize : Nat) : Except String (List (List BeamCand)) := do
  let inputsPy := pyOf3 inputs
  let predsPy := pyOf3 preds
  let logitsPy := pyOf3 logits
  let probsPy := pyOf3 probs
  (List.range batchSize).mapM (fun j => do
    let seqJ ← lget sequences j
    let cands ← ((List.range seqJ.length).flatMap
        (fun n => (List.range beam).map (fun k => (n, k)))).mapM
      (fun nk => do
        let c ← lget seqJ nk.1
        mkCandidate c inputsPy predsPy logitsPy probsPy nk.1 j nk.2)
    .ok ((sortCandsDesc cands).take beam))

/-- `_get_inputs_from_sequences`:
`torch.stack([seq[0][0] for seq in sequences]).reshape(beam, batch_size, -1)`. -/
def get_inputs_from_sequences (sequences : List (List BeamCand))
    (beam batchSize : Nat) : Except String (List (List (List Nat))) := do
  let rows ← sequences.mapM (fun seq => (lget seq 0).map (·.tokens))
  let L := (rows.headD []).length
  if rows.all (fun r => r.length = L) then
    let total := rows.length * L
    if 0 < beam * batchSize ∧ total % (beam * batchSize) = 0 then
      let L2 := total / (beam * batchSize)
      let flat := rows.flatten
      .ok ((List.range beam).map (fun a =>
        (List.range batchSize).map (fun b =>
          (flat.drop ((a * batchSize + b) * L2)).take L2)))
    else .error "RuntimeError: shape is invalid for input size"
  else .error "RuntimeError: stack expects each tensor to be equal size"

/-- `_is_generation_finished(inputs)` on the 3-dimensional `inputs`:
`((inputs == self.end_token_idx).sum(dim=1) > 0).sum().item() == inputs.size(1)` —
sum over the middle (batch) dimension, count the positive entries of the
resulting `(n, L)` tensor, compare with `inputs.size(1)`. -/
def is_generation_finished (M : KGSFDecoder) (inputs : List (List (List Nat))) : Bool :=
  let bsz := (inputs.headD []).length
  let total := (inputs.map (fun mat =>
    ((mat.transpose.map (fun col => col.count M.endTok)).countP (fun c => decide (0 < c))))).sum
  total = bsz

/-- `_get_final_outputs`: stack the best candidate's logit history and token
sequence of every batch element. -/
def get_final_outputs (sequences : List (List BeamCand)) :
    Except String (List (List (List ℚ)) × List (List Nat)) := do
  let logits ← sequences.mapM (fun seq => do
    let c ← lget seq 0
    match c.hist with
    | some h => Except.ok h
    | none => Except.error "TypeError: expected Tensor as element 1 in argument 0, but got list")
  let toks ← sequences.mapM (fun seq => (lget seq 0).map (·.tokens))
  .ok (logits, toks)

/-- One iteration of the beam-search `for i in range(self.response_truncate)`
body, returning the updated sequences, the `inputs` variable as it stands
after the iteration, and the `_is_generation_finished` test on it. -/
def beamStep (M : KGSFDecoder) (beam : Nat) (i : Nat)
    (sequences : List (List BeamCand)) (inputs0 : List (List (List Nat))) :
    Except String (List (List BeamCand) × List (List (List Nat)) × Bool) := do
  let inputs ← if i ≠ 0 then get_inputs_from_sequences sequences beam M.batchSize
               else Except.ok inputs0
  let logits := compute_logits M inputs
  let pk ← get_top_k_probabilities M logits beam
  let sequences2 ← update_sequences sequences inputs logits pk.1 pk.2 beam M.batchSize
  .ok (sequences2, inputs, is_generation_finished M inputs)

/-- The beam-search loop with its `break`. -/
def beamLoop (M : KGSFDecoder) (beam : Nat) :
    Nat → Nat → List (List BeamCand) → List (List (List Nat)) →
    Except String (List (List BeamCand))
  | 0, _, sequences, _ => .ok sequences
  | fuel + 1, i, sequences, inputs => do
    let st ← beamStep M beam i sequences inputs
    if st.2.2 then .ok st.1
    else beamLoop M beam fuel (i + 1) st.1 st.2.1

/-- `decode_beam_search_with_kg`. -/
def decode_beam_search_with_kg (M : KGSFDecoder) (beam : Nat) :
    Except String (List (List (List ℚ)) × List (List Nat)) := do
  let st := initialize_beam_search M
  let final ← beamLoop M beam M.responseTruncate 0 st.1 st.2
  get_final_outputs final

/-! ## Conversation stage routing (`KGSFModel.converse`, `KGSFSystem._handle_conv_stage`) -/

/-- Result of `KGSFModel.converse`: in every mode except `"test"` a
`(loss, preds)` pair — the loss represented by its (logit row, target) pairs
after `view(-1)` flattening — and in `"test"` mode the greedy sequences
alone. -/
inductive ConverseOut where
  | trainValOut (lossPairs : List (List ℚ × Nat)) (preds : List (List Nat)) : ConverseOut
  | testOut (preds : List (List Nat)) : ConverseOut

/-- The flattened conv-loss pairing over the batch:
`conv_loss(logits.view(-1, V), response.view(-1))` in row-major order. -/
def convLossPairs (M : KGSFDecoder) (responses : List (List Nat)) :
    List (List ℚ × Nat) :=
  (responses.mapIdx (fun b r => supervisedPairs M b r)).flatten

/-- The forced-decode predictions for the whole batch. -/
def forcedPredsBatch (M : KGSFDecoder) (responses : List (List Nat)) :
    List (List Nat) :=
  responses.mapIdx (fun b r => (decode_forced_with_kg M b r).2)

/-- `KGSFModel.converse`: `if mode != 'test'` run `_decode_forced_with_kg` on
the ground-truth response and return `(loss, preds)`, else run
`_decode_greedy_with_kg` and return the predictions alone. -/
def converse (M : KGSFDecoder) (responses : List (List Nat)) (mode : String) :
    Except String ConverseOut :=
  if mode ≠ "test" then
    .ok (.trainValOut (convLossPairs M responses) (forcedPredsBatch M responses))
  else
    (decode_greedy_with_kg M).map (fun r => .testOut r.2)

/-- Observable effect of one `KGSFSystem._handle_conv_stage` call:
which predictions were handed to `conv_evaluate` (if any), whether a backward
step ran, and whether `gen_loss`/`ppl` metrics were recorded. -/
structure ConvStageResult where
  evaluatedPreds : Option (List (List Nat))
  didBackward : Bool
  recordedGenLoss : Bool
deriving DecidableEq

/-- `KGSFSystem._handle_conv_stage`: `mode == "test"` evaluates the greedy
predictions; otherwise the forced-decode pair is unpacked, `"train"` runs the
backward pass and other modes evaluate the teacher-forced predictions, and
the generation loss is recorded either way.  (The two `match` arms that
re-tag the wrong constructor are unreachable: `converse` returns
`trainValOut` exactly when the mode is not `"test"`.) -/
def handle_conv_stage (M : KGSFDecoder) (responses : List (List Nat))
    (mode : String) : Except String ConvStageResult := do
  if mode = "test" then
    match ← converse M responses mode with
    | .testOut p => .ok ⟨some p, false, false⟩
    | .trainValOut _ p => .ok ⟨some p, false, false⟩
  else
    match ← converse M responses mode with
    | .trainValOut _ p =>
      if mode = "train" then .ok ⟨none, true, true⟩
      else .ok ⟨some p, false, true⟩
    | .testOut _ => .error "TypeError: cannot unpack"

/-! ## Recommendation stage (`KGSFModel.recommend`, `KGSFSystem._handle_rec_stage`)

The graph encoders, attention poolers and gate are opaque; what the claims
concern is the composition of the two loss terms.  `rec_loss` is the
cross-entropy scalar produced by `self.rec_loss(rec_scores, movie)` and
`info_predict` the output of the infomax head, both kept abstract as
parameters; the entity-label tensor `entities` and everything computed from
it is concrete. -/

/-- `torch.sum(entities)` over the multi-hot entity-label tensor. -/
def entitySum (entities : List (List ℚ)) : ℚ :=
  (entities.map (fun r => r.sum)).sum

/-- `nn.MSELoss(reduction='sum')` between prediction and target tensors. -/
def mseSum (pred target : List (List ℚ)) : ℚ :=
  ((pred.zip target).map (fun pr =>
    ((pr.1.zip pr.2).map (fun xy => (xy.1 - xy.2) * (xy.1 - xy.2))).sum)).sum

/-- The infomax auxiliary loss of `KGSFModel.recommend`:
`None` when `torch.sum(entities).item() == 0`, otherwise
`self.infomax_loss(info_predict, entities) / info_loss_mask` — the division
is only ever performed under the mask-nonzero guard. -/
def infoLossOpt (info_predict entities : List (List ℚ)) : Option ℚ :=
  let mask := entitySum entities
  if mask = 0 then none else some (mseSum info_predict entities / mask)

/-- `KGSFModel.recommend` at the loss level: returns
`(rec_loss, info_loss, rec_scores)`. -/
def recommend (rec_loss : ℚ) (rec_scores : List (List ℚ))
    (info_predict entities : List (List ℚ)) :
    ℚ × Option ℚ × List (List ℚ) :=
  (rec_loss, infoLossOpt info_predict entities, rec_scores)

/-- Python truthiness of `info_loss`: `None` is falsy, a scalar tensor is
truthy iff its value is nonzero. -/
def pyTruthyOptQ : Option ℚ → Bool
  | none => false
  | some v => decide (v ≠ 0)

/-- Observable effect of one `KGSFSystem._handle_rec_stage` call. -/
structure RecStageResult where
  totalLoss : ℚ
  didBackward : Bool
  recordedRecLoss : Bool
  recordedInfoLoss : Bool

/-- `KGSFSystem._handle_rec_stage`:
`loss = rec_loss + (0.025 * info_loss if info_loss else 0)`; in train mode the
loss is backpropagated; `rec_loss` is always recorded, `info_loss` only when
truthy.  The literal `0.025` is the rational `1/40` (exact numerics of the
float are out of the spec's scope). -/
def handle_rec_stage (mode : String) (rec_loss : ℚ) (info_loss : Option ℚ) :
    RecStageResult :=
  { totalLoss := rec_loss + (if pyTruthyOptQ info_loss then (1 / 40) * info_loss.getD 0 else 0),
    didBackward := mode = "train",
    recordedRecLoss := true,
    recordedInfoLoss := pyTruthyOptQ info_loss }

/-! ## Parameter freezing (`KGSFModel.freeze_parameters`)

`requires_grad` is uniform across the parameters of each sub-module (the
source loop sets every parameter of a listed module), so the trainability
state is one flag per module built by `build_model`. -/

/-- `requires_grad` flags of the `KGSFModel` sub-modules. -/
structure KGSFParameters where
  token_embedding : Bool
  word_kg_embedding : Bool
  entity_encoder : Bool
  entity_self_attn : Bool
  word_encoder : Bool
  word_self_attn : Bool
  gate_layer : Bool
  infomax_norm : Bool
  infomax_bias : Bool
  rec_bias : Bool
  conv_encoder : Bool
  conv_entity_norm : Bool
  conv_entity_attn_norm : Bool
  conv_word_norm : Bool
  conv_word_attn_norm : Bool
  copy_norm : Bool
  copy_output : Bool
  conv_decoder : Bool
deriving DecidableEq

/-- `freeze_parameters`: sets `requires_grad = False` on exactly
`[word_kg_embedding, entity_encoder, entity_self_attn, word_encoder,
word_self_attn, gate_layer, infomax_bias, infomax_norm, rec_bias]`. -/
def freeze_parameters (p : KGSFParameters) : KGSFParameters :=
  { p with
    word_kg_embedding := false, entity_encoder := false, entity_self_attn := false,
    word_encoder := false, word_self_attn := false, gate_layer := false,
    infomax_bias := false, infomax_norm := false, rec_bias := false }

/-- The all-trainable parameter state (every module freshly built). -/
def allTrainable : KGSFParameters :=
  ⟨true, true, true, true, true, true, true, true, true, true, true, true,
   true, true, true, true, true, true⟩

/-! ## Recommendation augmentation (`TGReDialDataLoader.rec_process_fn`) -/

/-- A conversation record as `rec_process_fn` sees it: the `'items'` list,
the `'item'` key it writes, and every other field bundled as `rest`
(copied verbatim by `deepcopy`). -/
structure ConvRecord (α : Type) where
  items : List Nat
  item : Option Nat
  rest : α

/-- The inner loop of `rec_process_fn` for one record: one deep copy per
mentioned movie, with the `'item'` key set to that movie. -/
def augment_record {α : Type} (r : ConvRecord α) : List (ConvRecord α) :=
  r.items.map (fun movie => { r with item := some movie })

/-- `rec_process_fn` over the whole dataset, appending in input order. -/
def rec_process_fn {α : Type} (dataset : List (ConvRecord α)) : List (ConvRecord α) :=
  dataset.flatMap augment_record

/-! ## Negative sampling (`TGReDialDataLoader._neg_sample`)

`random.randint(1, self.item_size)` draws uniformly from the inclusive range
`{1, …, item_size}`; the stream `draws i` gives the result of the `i`-th call.
The loop returns the value of the first draw outside `item_set` together with
the index of the next unused draw; `fuel` bounds the number of attempts the
embedding is allowed to unfold (the source loop has no bound: `none` means
the loop is still running after `fuel` attempts). -/
def neg_sample_loop (item_set : List Nat) (draws : Nat → Nat) :
    Nat → Nat → Option (Nat × Nat)
  | 0, _ => none
  | fuel + 1, i =>
    let item := draws i
    if item ∈ item_set then neg_sample_loop item_set draws fuel (i + 1)
    else some (item, i + 1)

/-! ## Dataloader utilities

`truncate`, `merge_utt`, `add_start_end_token_idx` and `padded_tensor` live in
`crslab/data/dataloader/utils.py`, which is not part of the sampled sources;
they are modelled from the spec below. -/

/-- Modelled from the spec: `truncate` (from `crslab.data.dataloader.utils`,
not under the sampled sources) keeps at most `max_length` items, discarding
the earliest elements when `truncate_tail` is false and the latest ones when
it is true; `none` means no truncation. -/
def truncate (xs : List Nat) (max_length : Option Nat) (truncate_tail : Bool) :
    List Nat :=
  match max_length with
  | none => xs
  | some m => if truncate_tail then xs.take m else xs.drop (xs.length - m)

/-- Modelled from the spec: `merge_utt` (same missing module) concatenates a
list of utterances into one token list; the variant used by
`_process_rec_context` has no separator (the caller inserts split tokens
itself). -/
def merge_utt (utts : List (List Nat)) : List Nat :=
  utts.flatten

/-- Modelled from the spec: `add_start_end_token_idx` (same missing module)
wraps a token list with the start and end markers. -/
def add_start_end_token_idx (xs : List Nat) (start_token_idx end_token_idx : Nat) :
    List Nat :=
  start_token_idx :: (xs ++ [end_token_idx])

/-- Length of the longest row of a batch. -/
def batchMaxLen (items : List (List Nat)) : Nat :=
  (items.map List.length).foldr max 0

/-- One padded row: content kept intact, pad ids added at the tail
(`pad_tail = true`) or at the head. -/
def padRow (pad_idx : Nat) (pad_tail : Bool) (t : Nat) (row : List Nat) : List Nat :=
  if pad_tail then row ++ List.replicate (t - row.length) pad_idx
  else List.replicate (t - row.length) pad_idx ++ row

/-- Modelled from the spec: `padded_tensor` (same missing module) pads every
row of a batch to one common width with the pad id — the width of the longest
row, or the configured `max_len` when that is given and larger (the spec:
"All sequences in a batch are right- or left-padded to a per-field truncation
length (configurable)"); `pad_tail` defaults to true in the source's call
convention. -/
def padded_tensor (items : List (List Nat)) (pad_idx : Nat) (pad_tail : Bool)
    (max_len : Option Nat) : List (List Nat) :=
  let t := max (batchMaxLen items) (max_len.getD 0)
  items.map (padRow pad_idx pad_tail t)

/-! ## Recommendation batching (`_process_rec_context`, `_process_history`,
`rec_batchify`) -/

/-- `_process_rec_context`: insert the sentence-split token before every
utterance but the first, merge, truncate from the head to
`context_truncate - 2`, and wrap with start/end markers. -/
def process_rec_context (sent_split_idx start_token_idx end_token_idx : Nat)
    (context_truncate : Nat) (context_tokens : List (List Nat)) : List Nat :=
  let compact := context_tokens.mapIdx
    (fun i u => if i = 0 then u else sent_split_idx :: u)
  add_start_end_token_idx
    (truncate (merge_utt compact) (some (context_truncate - 2)) false)
    start_token_idx end_token_idx

/-- The `sample_negs` loop of `_process_history`: one rejection-sampled
negative per position, drawing from a single stream whose cursor is threaded
through the calls. -/
def sample_negs (item_set : List Nat) (draws : Nat → Nat) (fuel : Nat) :
    Nat → Nat → Option (List Nat × Nat)
  | 0, i => some ([], i)
  | count + 1, i => do
    let vi ← neg_sample_loop item_set draws fuel i
    let rest ← sample_negs item_set draws fuel count vi.2
    some (vi.1 :: rest.1, rest.2)

/-- `_process_history` (with `item_id` given): truncate the interaction
history from the head to `item_truncate`, build the all-ones mask, draw one
negative per position against `set(input_ids)`, and shift the sequence for
the target positions (`input_ids[1:] + [item_id]`). -/
def process_history (item_truncate : Option Nat) (draws : Nat → Nat) (fuel : Nat)
    (context_items : List Nat) (item_id : Nat) (i : Nat) :
    Option ((List Nat × List Nat × List Nat × List Nat) × Nat) := do
  let input_ids := truncate context_items item_truncate false
  let input_mask := List.replicate input_ids.length 1
  let negs ← sample_negs input_ids draws fuel input_ids.length i
  let target_pos := input_ids.drop 1 ++ [item_id]
  some ((input_ids, target_pos, input_mask, negs.1), negs.2)

/-- One record of a recommendation batch as `rec_batchify` reads it. -/
structure RecConvDict where
  context_tokens : List (List Nat)
  item : Nat
  interaction_history : Option (List Nat)
  context_items : List Nat

/-- Configuration consumed by `rec_batchify`. -/
structure RecBatchCfg where
  pad_token_idx : Nat
  start_token_idx : Nat
  end_token_idx : Nat
  sent_split_idx : Nat
  context_truncate : Nat
  item_truncate : Option Nat

/-- The per-record collection loop of `rec_batchify`, threading the draw
cursor. -/
def rec_collect (cfg : RecBatchCfg) (draws : Nat → Nat) (fuel : Nat) :
    List RecConvDict → Nat →
    Option (List (List Nat) × List Nat × List (List Nat) × List (List Nat) ×
            List (List Nat) × List (List Nat) × Nat)
  | [], i => some ([], [], [], [], [], [], i)
  | c :: rest, i => do
    let context := process_rec_context cfg.sent_split_idx cfg.start_token_idx
      cfg.end_token_idx cfg.context_truncate c.context_tokens
    let context_items :=
      match c.interaction_history with
      | some h => h ++ c.context_items
      | none => c.context_items
    let ph ← process_history cfg.item_truncate draws fuel context_items c.item i
    let tail ← rec_collect cfg draws fuel rest ph.2
    some (context :: tail.1, c.item :: tail.2.1, ph.1.1 :: tail.2.2.1,
          ph.1.2.1 :: tail.2.2.2.1, ph.1.2.2.1 :: tail.2.2.2.2.1,
          ph.1.2.2.2 :: tail.2.2.2.2.2.1, tail.2.2.2.2.2.2)

/-- The padded fields returned by `rec_batchify`. -/
structure RecBatch where
  batch_context : List (List Nat)
  batch_mask : List (List Nat)
  batch_input_ids : List (List Nat)
  batch_target_pos : List (List Nat)
  batch_input_mask : List (List Nat)
  batch_sample_negs : List (List Nat)
  batch_movie_id : List Nat

/-- `rec_batchify`: collect the per-record fields, pad the context at the
tail to `context_truncate` and the four item-history fields at the head to
`item_truncate`, and derive the mask `(batch_context != pad).long()`. -/
def rec_batchify (cfg : RecBatchCfg) (draws : Nat → Nat) (fuel : Nat)
    (batch : List RecConvDict) : Option RecBatch := do
  let col ← rec_collect cfg draws fuel batch 0
  let batch_context := padded_tensor col.1 cfg.pad_token_idx true
    (some cfg.context_truncate)
  some { batch_context := batch_context,
         batch_mask := batch_context.map (fun r =>
           r.map (fun t => if t = cfg.pad_token_idx then 0 else 1)),
         batch_input_ids := padded_tensor col.2.2.1 cfg.pad_token_idx false cfg.item_truncate,
         batch_target_pos := padded_tensor col.2.2.2.1 cfg.pad_token_idx false cfg.item_truncate,
         batch_input_mask := padded_tensor col.2.2.2.2.1 cfg.pad_token_idx false cfg.item_truncate,
         batch_sample_negs := padded_tensor col.2.2.2.2.2.1 cfg.pad_token_idx false cfg.item_truncate,
         batch_movie_id := col.2.1 }

/-! ## Conversation batching tail (`_finalize_batch`) -/

/-- The fields returned by `_finalize_batch`. -/
structure ConvBatch where
  batch_enhanced_input_ids : List (List Nat)
  batch_enhanced_context_tokens : List (List Nat)
  batch_input_ids : List (List Nat)
  batch_context_tokens : List (List Nat)
  batch_context_entities : List (List Nat)
  batch_context_words : List (List Nat)
  batch_response : List (List Nat)

/-- `_finalize_batch`: context-like fields pad at the head to
`context_truncate`, the response pads at the tail to `response_truncate`, the
input-id fields are `torch.cat((context, response), dim=1)`, and the entity
and word fields are padded with **no** `max_len`. -/
def finalize_batch (pad_token_idx pad_entity_idx pad_word_idx : Nat)
    (context_truncate response_truncate : Option Nat)
    (batch_context_tokens batch_response batch_enhanced_context_tokens
     batch_context_entities batch_context_words : List (List Nat)) : ConvBatch :=
  let ct := padded_tensor batch_context_tokens pad_token_idx false context_truncate
  let resp := padded_tensor batch_response pad_token_idx true response_truncate
  let input_ids := ct.zipWith (fun a b => a ++ b) resp
  let enh := padded_tensor batch_enhanced_context_tokens pad_token_idx false context_truncate
  let enhanced_input_ids := enh.zipWith (fun a b => a ++ b) resp
  { batch_enhanced_input_ids := enhanced_input_ids,
    batch_enhanced_context_tokens := enh,
    batch_input_ids := input_ids,
    batch_context_tokens := ct,
    batch_context_entities := padded_tensor batch_context_entities pad_entity_idx false none,
    batch_context_words := padded_tensor batch_context_words pad_word_idx false none,
    batch_response := resp }

/-- The entity/word truncation applied by `conv_batchify` before
`_finalize_batch`: `truncate(conv_dict['context_entities'],
self.entity_truncate, truncate_tail=False)`. -/
def conv_entity_rows (entity_truncate : Option Nat)
    (raw : List (List Nat)) : List (List Nat) :=
  raw.map (fun l => truncate l entity_truncate false)

/-- A concrete one-element-batch model state used by the concrete theorems:
vocabulary `{0, 1, 2}`, start token 0, end token 2, two decode steps, and a
state whose fused logits always prefer token 1 (`softmax0` instantiated with
a shape-preserving map). -/
def demoDecoder : KGSFDecoder :=
  { batchSize := 1, startTok := 0, endTok := 2, responseTruncate := 2,
    stepLogits := fun _ _ => [0, 1, 0], softmax0 := id }

/-- The expected `rec_batchify` output on a one-record demo batch
(`context_truncate = 6`, `item_truncate = 3`, pad id 0): used as the
concrete test vector of the padding theorems. -/
def demoRecBatch : RecBatch :=
  { batch_context := [[1, 5, 2, 0, 0, 0]], batch_mask := [[1, 1, 1, 0, 0, 0]],
    batch_input_ids := [[0, 0, 4]], batch_target_pos := [[0, 0, 9]],
    batch_input_mask := [[0, 0, 1]], batch_sample_negs := [[0, 0, 7]],
    batch_movie_id := [9] }

/-! ## Theorems -/

/-- C4: in a recommendation step, when at least one entity is mentioned
(`torch.sum(entities) ≠ 0`) the step's total loss is the recommendation
cross-entropy plus `0.025` times the auxiliary infomax loss (the MSE divided
by the mask — the division happens only under the nonzero guard); when no
entity is mentioned the model returns `None` for the auxiliary loss, the
total loss is the recommendation cross-entropy alone, and no `info_loss`
metric is recorded. -/
theorem rec_stage_loss_spec (mode : String) (rec_loss : ℚ)
    (rec_scores info_predict entities : List (List ℚ)) :
    (entitySum entities = 0 →
      (recommend rec_loss rec_scores info_predict entities).2.1 = none ∧
      (handle_rec_stage mode rec_loss
        (recommend rec_loss rec_scores info_predict entities).2.1).totalLoss = rec_loss ∧
      (handle_rec_stage mode rec_loss
        (recommend rec_loss rec_scores info_predict entities).2.1).recordedInfoLoss = false) ∧
    (entitySum entities ≠ 0 →
      (recommend rec_loss rec_scores info_predict entities).2.1 =
        some (mseSum info_predict entities / entitySum entities) ∧
      (handle_rec_stage mode rec_loss
        (recommend rec_loss rec_scores info_predict entities).2.1).totalLoss =
        rec_loss + (1 / 40) * (mseSum info_predict entities / entitySum entities)) := by
  constructor
  · intro h
    simp [recommend, infoLossOpt, h, handle_rec_stage, pyTruthyOptQ]
  · intro h
    refine ⟨by simp [recommend, infoLossOpt, h], ?_⟩
    by_cases hv : mseSum info_predict entities / entitySum entities = 0
    · simp [recommend, infoLossOpt, h, handle_rec_stage, pyTruthyOptQ, hv]
    · simp [recommend, infoLossOpt, h, handle_rec_stage, pyTruthyOptQ, hv]

/-- Witness for C4: both branches of `rec_stage_loss_spec` at concrete
batches — an all-zero entity-label tensor, and one with a single mention. -/
theorem rec_stage_loss_check :
    ((recommend 3 [[1]] [[1, 2]] [[0, 0]]).2.1 = none ∧
      (handle_rec_stage "train" 3 (recommend 3 [[1]] [[1, 2]] [[0, 0]]).2.1).totalLoss = 3 ∧
      (handle_rec_stage "train" 3 (recommend 3 [[1]] [[1, 2]] [[0, 0]]).2.1).recordedInfoLoss
        = false) ∧
    ((recommend 3 [[1]] [[1, 2]] [[0, 1]]).2.1 =
      some (mseSum [[1, 2]] [[0, 1]] / entitySum [[0, 1]]) ∧
      (handle_rec_stage "train" 3 (recommend 3 [[1]] [[1, 2]] [[0, 1]]).2.1).totalLoss =
        3 + (1 / 40) * (mseSum [[1, 2]] [[0, 1]] / entitySum [[0, 1]])) :=
  ⟨(rec_stage_loss_spec "train" 3 [[1]] [[1, 2]] [[0, 0]]).1 (by norm_num [entitySum]),
   (rec_stage_loss_spec "train" 3 [[1]] [[1, 2]] [[0, 1]]).2 (by norm_num [entitySum])⟩

/-- C5 counterexample: the claim says the freeze operation makes the token
embedding non-trainable, but `freeze_parameters` does not touch
`self.token_embedding`: starting from the all-trainable state its
`requires_grad` flag is still `true` after freezing. -/
theorem freeze_spares_token_embedding :
    ¬ ((freeze_parameters allTrainable).token_embedding = false) := by
  decide

/-- C5 (amended): `freeze_parameters` makes every parameter of the word
embedding, the entity and word graph encoders, the two self-attention
poolers, the gate layer, the infomax head and the recommendation bias head
non-trainable, and leaves every other module — in particular the token
embedding, which stays trainable during the conversation phase — exactly as
it was. -/
theorem freeze_parameters_spec (p : KGSFParameters) :
    (freeze_parameters p).word_kg_embedding = false ∧
    (freeze_parameters p).entity_encoder = false ∧
    (freeze_parameters p).entity_self_attn = false ∧
    (freeze_parameters p).word_encoder = false ∧
    (freeze_parameters p).word_self_attn = false ∧
    (freeze_parameters p).gate_layer = false ∧
    (freeze_parameters p).infomax_bias = false ∧
    (freeze_parameters p).infomax_norm = false ∧
    (freeze_parameters p).rec_bias = false ∧
    (freeze_parameters p).token_embedding = p.token_embedding ∧
    (freeze_parameters p).conv_encoder = p.conv_encoder ∧
    (freeze_parameters p).conv_entity_norm = p.conv_entity_norm ∧
    (freeze_parameters p).conv_entity_attn_norm = p.conv_entity_attn_norm ∧
    (freeze_parameters p).conv_word_norm = p.conv_word_norm ∧
    (freeze_parameters p).conv_word_attn_norm = p.conv_word_attn_norm ∧
    (freeze_parameters p).copy_norm = p.copy_norm ∧
    (freeze_parameters p).copy_output = p.copy_output ∧
    (freeze_parameters p).conv_decoder = p.conv_decoder :=
  ⟨rfl, rfl, rfl, rfl, rfl, rfl, rfl, rfl, rfl, rfl, rfl, rfl, rfl, rfl, rfl,
   rfl, rfl, rfl⟩

/-- C6: for a record whose `'items'` field lists `N` (distinct) mentioned
items, the augmentation loop produces exactly `N` records, the `i`-th being
the deep copy of the record with its supervised target set to the `i`-th
item (order preserved, all other fields unchanged), with pairwise distinct
targets; and `rec_process_fn` is this expansion applied datasetwise. -/
theorem rec_process_fn_spec {α : Type} (r : ConvRecord α) (h : r.items.Nodup) :
    (augment_record r).length = r.items.length ∧
    (∀ i : Nat, (augment_record r)[i]? =
      (r.items[i]?).map (fun m => { r with item := some m })) ∧
    (∀ x ∈ augment_record r, x.items = r.items ∧ x.rest = r.rest) ∧
    ((augment_record r).map (fun x => x.item)).Nodup ∧
    rec_process_fn [r] = augment_record r := by
  refine ⟨List.length_map _ _, ?_, ?_, ?_, ?_⟩
  · intro i
    simp [augment_record]
  · intro x hx
    obtain ⟨m, _, rfl⟩ := List.mem_map.mp hx
    exact ⟨rfl, rfl⟩
  · have : ((augment_record r).map (fun x => x.item)) = r.items.map some := by
      simp [augment_record]
    rw [this]
    exact h.map (Option.some_injective Nat)
  · simp [rec_process_fn, augment_record]

/-- Witness for C6 at a record with two mentioned items. -/
theorem rec_process_fn_check :
    (augment_record (⟨[3, 5], none, 0⟩ : ConvRecord Nat)).length = 2 ∧
    ((augment_record (⟨[3, 5], none, 0⟩ : ConvRecord Nat)).map (fun x => x.item)).Nodup :=
  ⟨(rec_process_fn_spec (⟨[3, 5], none, 0⟩ : ConvRecord Nat) (by decide)).1,
   (rec_process_fn_spec (⟨[3, 5], none, 0⟩ : ConvRecord Nat) (by decide)).2.2.2.1⟩

/-- C9 counterexample: with item space size `n_entity = 5`,
`random.randint(1, item_size)` may legitimately return `5` (the upper bound
of `randint` is inclusive); `_neg_sample` then returns `5`, which is **not**
strictly less than `n_entity`, contradicting the claimed strict bound for
negative samples. -/
theorem neg_sample_can_return_item_size :
    neg_sample_loop [] (fun _ => 5) 1 0 = some (5, 1) ∧ ¬ (5 < 5) := by
  decide

/-- C9 (amended): a value returned by the `_neg_sample` rejection loop lies
in the inclusive range `{1, …, item_size}` of `random.randint(1, item_size)`
— so it is at most `n_entity`, but not necessarily strictly below it — and is
never a member of the item set. -/
theorem neg_sample_range_spec (item_set : List Nat) (M : Nat) (draws : Nat → Nat)
    (hr : ∀ i, 1 ≤ draws i ∧ draws i ≤ M) :
    ∀ fuel i v j, neg_sample_loop item_set draws fuel i = some (v, j) →
      1 ≤ v ∧ v ≤ M ∧ v ∉ item_set := by
  intro fuel
  induction fuel with
  | zero => intro i v j hsome; simp [neg_sample_loop] at hsome
  | succ fuel ih =>
    intro i v j hsome
    by_cases hmem : draws i ∈ item_set
    · exact ih (i + 1) v j (by simpa [neg_sample_loop, hmem] using hsome)
    · have : draws i = v ∧ i + 1 = j := by
        simpa [neg_sample_loop, hmem] using hsome
      obtain ⟨rfl, -⟩ := this
      exact ⟨(hr i).1, (hr i).2, hmem⟩

/-- Witness for C9's amended theorem with a constant stream. -/
theorem neg_sample_range_check : 1 ≤ 2 ∧ 2 ≤ 3 ∧ 2 ∉ ([1] : List Nat) :=
  neg_sample_range_spec [1] 3 (fun _ => 2) (by intro i; exact ⟨by norm_num, by norm_num⟩)
    1 0 2 1 (by decide)

/-- If the first `n` draws collide with the item set and draw `n` does not,
the rejection loop stops at draw `n` with `n + 1` fuel. -/
theorem neg_sample_loop_first_success (item_set : List Nat) (draws : Nat → Nat) :
    ∀ n start, (∀ j, j < n → draws (start + j) ∈ item_set) →
      draws (start + n) ∉ item_set →
      neg_sample_loop item_set draws (n + 1) start =
        some (draws (start + n), start + n + 1) := by
  intro n
  induction n with
  | zero =>
    intro start _ hgood
    have hgood0 : draws start ∉ item_set := by simpa using hgood
    simp [neg_sample_loop, hgood0]
  | succ n ih =>
    intro start hbad hgood
    have hbad0 : draws start ∈ item_set := by
      have := hbad 0 (Nat.succ_pos n)
      simpa using this
    have hbad2 : ∀ j, j < n → draws (start + 1 + j) ∈ item_set := by
      intro j hj
      have heq : start + 1 + j = start + (j + 1) := by omega
      rw [heq]
      exact hbad (j + 1) (by omega)
    have hgood2 : draws (start + 1 + n) ∉ item_set := by
      have heq : start + 1 + n = start + (n + 1) := by omega
      rw [heq]
      exact hgood
    have := ih (start + 1) hbad2 hgood2
    have heq : start + 1 + n = start + (n + 1) := by omega
    rw [heq] at this
    simpa [neg_sample_loop, hbad0] using this

/-- C7: for an item set strictly smaller than the item space, negative
sampling never returns a member of that set (whenever the loop returns at
all), the item space contains non-members so a uniform stream eventually
draws one (the probabilistic content of "always terminates"), and the loop
does terminate — at the first non-colliding draw — for every draw stream
containing such a draw. -/
theorem neg_sample_spec (item_set : List Nat) (M : Nat) (draws : Nat → Nat)
    (hr : ∀ i, 1 ≤ draws i ∧ draws i ≤ M)
    (hcard : item_set.toFinset.card < M)
    (hfair : ∃ i, draws i ∉ item_set) :
    (∃ fuel v j, neg_sample_loop item_set draws fuel 0 = some (v, j) ∧ v ∉ item_set) ∧
    (∀ fuel i v j, neg_sample_loop item_set draws fuel i = some (v, j) → v ∉ item_set) ∧
    (Finset.Icc 1 M \ item_set.toFinset).Nonempty := by
  have hsound : ∀ fuel i v j,
      neg_sample_loop item_set draws fuel i = some (v, j) → v ∉ item_set := by
    intro fuel
    induction fuel with
    | zero => intro i v j hsome; simp [neg_sample_loop] at hsome
    | succ fuel ih =>
      intro i v j hsome
      by_cases hmem : draws i ∈ item_set
      · exact ih (i + 1) v j (by simpa [neg_sample_loop, hmem] using hsome)
      · have : draws i = v ∧ i + 1 = j := by
          simpa [neg_sample_loop, hmem] using hsome
        obtain ⟨rfl, -⟩ := this
        exact hmem
  refine ⟨?_, hsound, ?_⟩
  · classical
    have h0 : draws (Nat.find hfair) ∉ item_set := Nat.find_spec hfair
    have hmin : ∀ j, j < Nat.find hfair → draws (0 + j) ∈ item_set := by
      intro j hj
      have := Nat.find_min hfair hj
      simpa using this
    refine ⟨Nat.find hfair + 1, draws (Nat.find hfair), Nat.find hfair + 1, ?_, h0⟩
    have := neg_sample_loop_first_success item_set draws (Nat.find hfair) 0 hmin
      (by simpa using h0)
    simpa using this
  · by_contra hempty
    rw [Finset.not_nonempty_iff_eq_empty, Finset.sdiff_eq_empty_iff_subset] at hempty
    have := Finset.card_le_card hempty
    rw [Nat.card_Icc] at this
    omega

/-- Witness for C7: item space `{1, 2}`, item set `{1}`, a stream that draws
`2` at once. -/
theorem neg_sample_check :
    (∃ fuel v j, neg_sample_loop [1] (fun _ => 2) fuel 0 = some (v, j) ∧
      v ∉ ([1] : List Nat)) ∧
    (Finset.Icc 1 2 \ ([1] : List Nat).toFinset).Nonempty :=
  ⟨(neg_sample_spec [1] 2 (fun _ => 2) (by intro i; exact ⟨by norm_num, by norm_num⟩)
      (by decide) ⟨0, by decide⟩).1,
   (neg_sample_spec [1] 2 (fun _ => 2) (by intro i; exact ⟨by norm_num, by norm_num⟩)
      (by decide) ⟨0, by decide⟩).2.2⟩

/-- C2: for a nonempty ground-truth response of length `L`, the forced-decode
input is START followed by the response with its last token dropped (so the
input at position `i` is response token `i - 1`, START at position 0), there
are exactly `L` logit rows, the row at position `i` is computed from the
decoder input up to and including position `i`, and the cross-entropy
pairing supervises row `i` with response token `i`. -/
theorem decode_forced_alignment_spec (M : KGSFDecoder) (b : Nat)
    (response : List Nat) (h : response ≠ []) :
    (forcedInputs M response).length = response.length ∧
    (forcedInputs M response)[0]? = some M.startTok ∧
    (∀ i, 0 < i → i < response.length →
      (forcedInputs M response)[i]? = response[i - 1]?) ∧
    (decode_forced_with_kg M b response).1.length = response.length ∧
    (∀ i, i < response.length →
      (decode_forced_with_kg M b response).1[i]? =
        some (M.stepLogits b ((forcedInputs M response).take (i + 1)))) ∧
    (supervisedPairs M b response).length = response.length ∧
    (∀ i, (hi : i < response.length) →
      (supervisedPairs M b response)[i]? =
        some (M.stepLogits b ((forcedInputs M response).take (i + 1)), response[i])) := by
  have hpos : 0 < response.length := List.length_pos.mpr h
  have h1 : (forcedInputs M response).length = response.length := by
    simp only [forcedInputs, List.length_cons, List.length_dropLast]
    omega
  have h4 : (decode_forced_with_kg M b response).1.length = response.length := by
    simp [decode_forced_with_kg, h1]
  have h5 : ∀ i, i < response.length →
      (decode_forced_with_kg M b response).1[i]? =
        some (M.stepLogits b ((forcedInputs M response).take (i + 1))) := by
    intro i hi
    have hi2 : i < (forcedInputs M response).length := by omega
    simp [decode_forced_with_kg, List.getElem?_map, List.getElem?_range, hi2]
  have h6 : (supervisedPairs M b response).length = response.length := by
    simp [supervisedPairs, List.length_zip, h4]
  refine ⟨h1, by simp [forcedInputs], ?_, h4, h5, h6, ?_⟩
  · intro i h0 hi
    obtain ⟨j, rfl⟩ : ∃ j, i = j + 1 := ⟨i - 1, by omega⟩
    have hj : j < response.length - 1 := by omega
    simp only [forcedInputs, List.getElem?_cons_succ, Nat.add_sub_cancel]
    rw [List.dropLast_eq_take, List.getElem?_take_of_lt hj]
  · intro i hi
    have hz : i < (supervisedPairs M b response).length := by omega
    have hib : i < (decode_forced_with_kg M b response).1.length := by omega
    rw [List.getElem?_eq_getElem hz]
    have hl : (decode_forced_with_kg M b response).1[i] =
        M.stepLogits b ((forcedInputs M response).take (i + 1)) := by
      have h5i := h5 i hi
      rw [List.getElem?_eq_getElem (by omega)] at h5i
      exact Option.some.inj h5i
    simp only [supervisedPairs, List.getElem_zip, hl]

/-- Witness for C2 at a concrete two-token response. -/
theorem decode_forced_alignment_check :
    (forcedInputs demoDecoder [4, 5]).length = 2 ∧
    (supervisedPairs demoDecoder 0 [4, 5]).length = 2 :=
  ⟨(decode_forced_alignment_spec demoDecoder 0 [4, 5] (by decide)).1,
   (decode_forced_alignment_spec demoDecoder 0 [4, 5] (by decide)).2.2.2.2.2.1⟩

/-- One greedy step preserves the number of rows. -/
theorem greedyStepFn_length (M : KGSFDecoder) (seqs : List (List Nat)) :
    (greedyStepFn M seqs).length = seqs.length := by
  simp [greedyStepFn]

/-- Iterated greedy steps preserve the number of rows. -/
theorem greedy_iterate_length (M : KGSFDecoder) (t : Nat) :
    ((greedyStepFn M)^[t] (startInputs M)).length = M.batchSize := by
  induction t with
  | zero => simp [startInputs]
  | succ t ih => rw [Function.iterate_succ_apply', greedyStepFn_length]; exact ih

/-- The source's stopping test counts the rows containing the end token and
compares with the batch size, which — the row count being the batch size —
says precisely that every row contains the end token. -/
theorem greedyFinished_iff (M : KGSFDecoder) (seqs : List (List Nat))
    (hlen : seqs.length = M.batchSize) :
    greedyFinished M seqs = true ↔ ∀ s ∈ seqs, M.endTok ∈ s := by
  unfold greedyFinished
  rw [decide_eq_true_eq, ← hlen, List.countP_eq_length]
  simp [List.count_pos_iff]

/-- Behaviour of the greedy loop: it runs `d ≤ fuel` steps with `0 < d` when
there is fuel, the returned rows are the `d`-fold iterate of the step
function, it stops only because the test passed or the fuel ran out, and the
test failed at every earlier step. -/
theorem greedyLoop_spec (M : KGSFDecoder) :
    ∀ fuel s0,
      (greedyLoop M fuel s0).2 = (greedyStepFn M)^[(greedyLoop M fuel s0).1] s0 ∧
      (greedyLoop M fuel s0).1 ≤ fuel ∧
      (0 < fuel → 0 < (greedyLoop M fuel s0).1) ∧
      (greedyFinished M (greedyLoop M fuel s0).2 = true ∨
        (greedyLoop M fuel s0).1 = fuel) ∧
      (∀ t, 0 < t → t < (greedyLoop M fuel s0).1 →
        greedyFinished M ((greedyStepFn M)^[t] s0) = false) := by
  intro fuel
  induction fuel with
  | zero =>
    intro s0
    refine ⟨rfl, le_refl 0, by omega, Or.inr rfl, ?_⟩
    intro t h0 ht
    simp [greedyLoop] at ht
  | succ fuel ih =>
    intro s0
    by_cases hf : greedyFinished M (greedyStepFn M s0) = true
    · have hres : greedyLoop M (fuel + 1) s0 = (1, greedyStepFn M s0) := by
        simp [greedyLoop, hf]
      refine ⟨by rw [hres]; simp, by rw [hres]; omega, by rw [hres]; omega, ?_, ?_⟩
      · left; rw [hres]; exact hf
      · intro t h0 ht
        rw [hres] at ht
        omega
    · have hres : greedyLoop M (fuel + 1) s0 =
          ((greedyLoop M fuel (greedyStepFn M s0)).1 + 1,
           (greedyLoop M fuel (greedyStepFn M s0)).2) := by
        simp [greedyLoop, hf]
      obtain ⟨ih1, ih2, ih3, ih4, ih5⟩ := ih (greedyStepFn M s0)
      refine ⟨?_, by rw [hres]; simp; omega, by rw [hres]; simp, ?_, ?_⟩
      · rw [hres]
        simp only
        rw [ih1, Function.iterate_succ_apply]
      · rw [hres]
        rcases ih4 with h4 | h4
        · left; exact h4
        · right; simp [h4]
      · intro t h0 ht
        rw [hres] at ht
        simp only at ht
        rcases Nat.eq_or_lt_of_le h0 with h1 | h1
        · rw [← h1]
          simpa [Function.iterate_one] using (Bool.not_eq_true _).mp hf
        · have ht2 : t - 1 < (greedyLoop M fuel (greedyStepFn M s0)).1 := by omega
          have := ih5 (t - 1) (by omega) ht2
          rw [← Function.iterate_succ_apply] at this
          simpa [Nat.succ_eq_add_one, Nat.sub_add_cancel (by omega : 1 ≤ t)] using this

/-- C3: with a positive step cap, greedy decoding always returns (no error is
raised when the cap is reached), after `steps` decode steps with
`0 < steps ≤ response_truncate`; the rows returned are exactly the
accumulated iterate of the decode step; decoding stops exactly when every
row contains the end token or when the cap is reached, whichever happens
first (the finish test fails at every earlier step). -/
theorem decode_greedy_termination_spec (M : KGSFDecoder)
    (h : 0 < M.responseTruncate) :
    ∃ steps seqs, decode_greedy_with_kg M = .ok (steps, seqs) ∧
      seqs = (greedyStepFn M)^[steps] (startInputs M) ∧
      0 < steps ∧ steps ≤ M.responseTruncate ∧
      ((∀ s ∈ seqs, M.endTok ∈ s) ∨ steps = M.responseTruncate) ∧
      (∀ t, 0 < t → t < steps →
        ¬ (∀ s ∈ (greedyStepFn M)^[t] (startInputs M), M.endTok ∈ s)) := by
  obtain ⟨h1, h2, h3, h4, h5⟩ := greedyLoop_spec M M.responseTruncate (startInputs M)
  have hpos := h3 h
  refine ⟨(greedyLoop M M.responseTruncate (startInputs M)).1,
          (greedyLoop M M.responseTruncate (startInputs M)).2, ?_, h1, hpos, h2, ?_, ?_⟩
  · unfold decode_greedy_with_kg
    rw [if_neg (by omega)]
  · rcases h4 with h4 | h4
    · left
      rw [h1] at h4 ⊢
      exact (greedyFinished_iff M _ (greedy_iterate_length M _)).mp h4
    · right; exact h4
  · intro t h0 ht hall
    have hfalse := h5 t h0 ht
    have htrue := (greedyFinished_iff M _ (greedy_iterate_length M t)).mpr hall
    rw [hfalse] at htrue
    simp at htrue

/-- Witness for C3 at the demo model. -/
theorem decode_greedy_termination_check :
    ∃ steps seqs, decode_greedy_with_kg demoDecoder = .ok (steps, seqs) ∧
      seqs = (greedyStepFn demoDecoder)^[steps] (startInputs demoDecoder) ∧
      0 < steps ∧ steps ≤ demoDecoder.responseTruncate ∧
      ((∀ s ∈ seqs, demoDecoder.endTok ∈ s) ∨ steps = demoDecoder.responseTruncate) ∧
      (∀ t, 0 < t → t < steps →
        ¬ (∀ s ∈ (greedyStepFn demoDecoder)^[t] (startInputs demoDecoder),
             demoDecoder.endTok ∈ s)) :=
  decode_greedy_termination_spec demoDecoder (by decide)

/-- C1 (code bug): at the very first decode step, `_update_sequences`
evaluates `preds[n][j][0][k]` — four subscripts applied to the
3-dimensional `(rows, 1, beam)` result of `topk` — so the fourth subscript
hits a 0-dimensional tensor and raises `IndexError`.  Beam search therefore
returns no sequence at all for any input, while greedy decoding on the very
same model state returns its token sequences; with `beam = 1` the two can
never agree.  Shown here on the concrete demo state (`beam = 1`,
`batch_size = 1`, two decode steps): beam search raises, greedy returns
`[start, 1, 1]` after its two steps. -/
theorem beam_one_crashes_greedy_returns :
    decode_beam_search_with_kg demoDecoder 1 =
      .error "IndexError: invalid index of a 0-dim tensor" ∧
    decode_greedy_with_kg demoDecoder = .ok (2, [[0, 1, 1]]) :=
  ⟨rfl, rfl⟩

/-- C10: for every mode other than `"test"` — validation included — the
conversation forward pass runs teacher-forced decoding on the ground-truth
responses and returns the loss pairing together with predictions that are
the per-position argmaxes of the forced logits; only `"test"` runs
free-running greedy decoding and returns predictions alone; and the
`"val"` branch of `_handle_conv_stage` hands exactly the teacher-forced
predictions to `conv_evaluate`. -/
theorem converse_mode_spec (M : KGSFDecoder) (responses : List (List Nat)) :
    (∀ mode, mode ≠ "test" →
      converse M responses mode =
        .ok (.trainValOut (convLossPairs M responses) (forcedPredsBatch M responses))) ∧
    (forcedPredsBatch M responses =
      responses.mapIdx (fun b r => (decode_forced_with_kg M b r).1.map argmaxQ)) ∧
    (converse M responses "test" =
      (decode_greedy_with_kg M).map (fun r => .testOut r.2)) ∧
    (handle_conv_stage M responses "val" =
      .ok ⟨some (forcedPredsBatch M responses), false, true⟩) := by
  refine ⟨?_, rfl, rfl, rfl⟩
  intro mode hm
  simp [converse, hm]

/-- Witness for C10: the validation mode routes through forced decoding. -/
theorem converse_mode_check :
    converse demoDecoder [[4, 5]] "val" =
      .ok (.trainValOut (convLossPairs demoDecoder [[4, 5]])
        (forcedPredsBatch demoDecoder [[4, 5]])) :=
  (converse_mode_spec demoDecoder [[4, 5]]).1 "val" (by decide)

/-- `batchMaxLen` on a cons. -/
theorem batchMaxLen_cons (x : List Nat) (xs : List (List Nat)) :
    batchMaxLen (x :: xs) = max x.length (batchMaxLen xs) := rfl

/-- Every row is at most as long as the batch maximum. -/
theorem le_batchMaxLen (items : List (List Nat)) :
    ∀ r ∈ items, r.length ≤ batchMaxLen items := by
  induction items with
  | nil => intro r hr; simp at hr
  | cons x xs ih =>
    intro r hr
    rw [batchMaxLen_cons]
    rcases List.mem_cons.mp hr with rfl | hr2
    · omega
    · have := ih r hr2
      omega

/-- The batch maximum is bounded by any common row bound. -/
theorem batchMaxLen_le (items : List (List Nat)) (m : Nat)
    (h : ∀ r ∈ items, r.length ≤ m) : batchMaxLen items ≤ m := by
  induction items with
  | nil => simp [batchMaxLen]
  | cons x xs ih =>
    rw [batchMaxLen_cons]
    have hx := h x (List.mem_cons_self x xs)
    have := ih (fun r hr => h r (List.mem_cons_of_mem x hr))
    omega

/-- A padded row has exactly the target width when the content fits. -/
theorem padRow_length (p : Nat) (tail : Bool) (t : Nat) (row : List Nat)
    (h : row.length ≤ t) : (padRow p tail t row).length = t := by
  cases tail <;> simp [padRow] <;> omega

/-- With an explicit `max_len` bounding every row, all padded rows have
exactly that width. -/
theorem padded_tensor_some_length (items : List (List Nat)) (p : Nat)
    (tail : Bool) (m : Nat) (h : ∀ r ∈ items, r.length ≤ m) :
    ∀ o ∈ padded_tensor items p tail (some m), o.length = m := by
  intro o ho
  simp only [padded_tensor, Option.getD_some, List.mem_map] at ho
  obtain ⟨r, hr, rfl⟩ := ho
  have hw : max (batchMaxLen items) m = m :=
    Nat.max_eq_right (batchMaxLen_le items m h)
  rw [hw]
  exact padRow_length p tail m r (h r hr)

/-- Without a `max_len`, all padded rows have the width of the longest row of
the batch. -/
theorem padded_tensor_none_length (items : List (List Nat)) (p : Nat)
    (tail : Bool) :
    ∀ o ∈ padded_tensor items p tail none, o.length = batchMaxLen items := by
  intro o ho
  simp only [padded_tensor, Option.getD_none, List.mem_map] at ho
  obtain ⟨r, hr, rfl⟩ := ho
  rw [Nat.max_eq_left (Nat.zero_le _)]
  exact padRow_length p tail _ r (le_batchMaxLen items r hr)

/-- Head padding keeps the content intact at the end of the row and puts only
pad ids in front of it. -/
theorem padRow_head_structure (p t : Nat) (row : List Nat) :
    (padRow p false t row).drop (t - row.length) = row ∧
    (∀ x ∈ (padRow p false t row).take (t - row.length), x = p) := by
  constructor
  · show (List.replicate (t - row.length) p ++ row).drop (t - row.length) = row
    exact List.drop_left' (by simp)
  · intro x hx
    have h2 : (padRow p false t row).take (t - row.length) =
        List.replicate (t - row.length) p := by
      show (List.replicate (t - row.length) p ++ row).take (t - row.length) = _
      exact List.take_left' (by simp)
    rw [h2] at hx
    exact List.eq_of_mem_replicate hx

/-- Tail padding keeps the content intact at the front of the row and puts
only pad ids after it. -/
theorem padRow_tail_structure (p t : Nat) (row : List Nat) :
    (padRow p true t row).take row.length = row ∧
    (∀ x ∈ (padRow p true t row).drop row.length, x = p) := by
  constructor
  · show (row ++ List.replicate (t - row.length) p).take row.length = row
    exact List.take_left' rfl
  · intro x hx
    have h2 : (padRow p true t row).drop row.length =
        List.replicate (t - row.length) p := by
      show (row ++ List.replicate (t - row.length) p).drop row.length = _
      exact List.drop_left' rfl
    rw [h2] at hx
    exact List.eq_of_mem_replicate hx

/-- Truncation yields at most the configured number of tokens. -/
theorem truncate_length_le (xs : List Nat) (m : Nat) (tail : Bool) :
    (truncate xs (some m) tail).length ≤ m := by
  cases tail with
  | false =>
    show (xs.drop (xs.length - m)).length ≤ m
    rw [List.length_drop]
    omega
  | true =>
    show (xs.take m).length ≤ m
    rw [List.length_take]
    omega

/-- The processed recommendation context never exceeds `context_truncate`. -/
theorem process_rec_context_length_le (ss st en ct : Nat)
    (toks : List (List Nat)) (h : 2 ≤ ct) :
    (process_rec_context ss st en ct toks).length ≤ ct := by
  have h2 := truncate_length_le (merge_utt (toks.mapIdx
    (fun i u => if i = 0 then u else ss :: u))) (ct - 2) false
  simp only [process_rec_context, add_start_end_token_idx, List.length_cons,
    List.length_append, List.length_nil]
  omega

/-- `sample_negs` produces one negative per requested position. -/
theorem sample_negs_length (s : List Nat) (draws : Nat → Nat) (fuel : Nat) :
    ∀ count i l j, sample_negs s draws fuel count i = some (l, j) →
      l.length = count := by
  intro count
  induction count with
  | zero =>
    intro i l j h
    simp only [sample_negs, Option.some.injEq, Prod.mk.injEq] at h
    rw [← h.1]
    rfl
  | succ count ih =>
    intro i l j h
    unfold sample_negs at h
    cases hv : neg_sample_loop s draws fuel i with
    | none => rw [hv] at h; simp at h
    | some vi =>
      rw [hv] at h
      simp only [Option.bind_eq_bind, Option.some_bind] at h
      cases hrest : sample_negs s draws fuel count vi.2 with
      | none => rw [hrest] at h; simp at h
      | some rest =>
        rw [hrest] at h
        simp only [Option.some_bind, Option.some.injEq, Prod.mk.injEq] at h
        have hlen := ih vi.2 rest.1 rest.2 hrest
        rw [← h.1]
        simp [hlen]

/-- Bounds on the four sequences built by `_process_history`: with
`item_truncate = it ≥ 1`, every produced list has length at most `it`. -/
theorem process_history_bounds (it : Nat) (draws : Nat → Nat) (fuel : Nat)
    (context_items : List Nat) (item_id i : Nat) (hit1 : 1 ≤ it)
    (res : (List Nat × List Nat × List Nat × List Nat) × Nat)
    (h : process_history (some it) draws fuel context_items item_id i = some res) :
    res.1.1.length ≤ it ∧ res.1.2.1.length ≤ it ∧
    res.1.2.2.1.length ≤ it ∧ res.1.2.2.2.length ≤ it := by
  have htr := truncate_length_le context_items it false
  simp only [process_history] at h
  cases hn : sample_negs (truncate context_items (some it) false) draws fuel
      (truncate context_items (some it) false).length i with
  | none => rw [hn] at h; simp at h
  | some negs =>
    rw [hn] at h
    simp only [Option.bind_eq_bind, Option.some_bind, Option.some.injEq] at h
    have hneg := sample_negs_length (truncate context_items (some it) false) draws fuel
      (truncate context_items (some it) false).length i negs.1 negs.2 (by rw [hn])
    rw [← h]
    refine ⟨htr, ?_, by simpa using htr, by rw [hneg]; exact htr⟩
    simp only [List.length_append, List.length_drop]
    simp
    omega

/-- Bounds on all per-record fields collected by the `rec_batchify` loop. -/
theorem rec_collect_bounds (cfg : RecBatchCfg) (draws : Nat → Nat) (fuel : Nat)
    (it : Nat) (hct : 2 ≤ cfg.context_truncate)
    (hit : cfg.item_truncate = some it) (hit1 : 1 ≤ it) :
    ∀ batch i res, rec_collect cfg draws fuel batch i = some res →
      (∀ r ∈ res.1, r.length ≤ cfg.context_truncate) ∧
      res.2.1.length = batch.length ∧
      (∀ r ∈ res.2.2.1, r.length ≤ it) ∧
      (∀ r ∈ res.2.2.2.1, r.length ≤ it) ∧
      (∀ r ∈ res.2.2.2.2.1, r.length ≤ it) ∧
      (∀ r ∈ res.2.2.2.2.2.1, r.length ≤ it) := by
  intro batch
  induction batch with
  | nil =>
    intro i res h
    simp only [rec_collect, Option.some.injEq] at h
    rw [← h]
    refine ⟨?_, rfl, ?_, ?_, ?_, ?_⟩ <;> intro r hr <;> simp at hr
  | cons c rest ih =>
    intro i res h
    simp only [rec_collect] at h
    rw [hit] at h
    cases hph : process_history (some it) draws fuel
        (match c.interaction_history with
         | some hist => hist ++ c.context_items
         | none => c.context_items) c.item i with
    | none => rw [hph] at h; simp at h
    | some ph =>
      rw [hph] at h
      simp only [Option.bind_eq_bind, Option.some_bind] at h
      cases hrec : rec_collect cfg draws fuel rest ph.2 with
      | none => rw [hrec] at h; simp at h
      | some tail =>
        rw [hrec] at h
        simp only [Option.some_bind, Option.some.injEq] at h
        obtain ⟨hph1, hph2, hph3, hph4⟩ := process_history_bounds it draws fuel _ c.item i
          hit1 ph hph
        obtain ⟨iha, ihb, ihc, ihd, ihe, ihf⟩ := ih ph.2 tail hrec
        rw [← h]
        refine ⟨?_, ?_, ?_, ?_, ?_, ?_⟩
        · intro r hr
          rcases List.mem_cons.mp hr with rfl | hr2
          · exact process_rec_context_length_le _ _ _ _ _ hct
          · exact iha r hr2
        · simp [ihb]
        · intro r hr
          rcases List.mem_cons.mp hr with rfl | hr2
          · exact hph1
          · exact ihc r hr2
        · intro r hr
          rcases List.mem_cons.mp hr with rfl | hr2
          · exact hph2
          · exact ihd r hr2
        · intro r hr
          rcases List.mem_cons.mp hr with rfl | hr2
          · exact hph3
          · exact ihe r hr2
        · intro r hr
          rcases List.mem_cons.mp hr with rfl | hr2
          · exact hph4
          · exact ihf r hr2

/-- Row lengths of a `zipWith` concatenation of two constant-width batches. -/
theorem zipWith_append_length (a b : Nat) :
    ∀ (l1 l2 : List (List Nat)), (∀ r ∈ l1, r.length = a) →
      (∀ r ∈ l2, r.length = b) →
      ∀ r ∈ l1.zipWith (fun x y => x ++ y) l2, r.length = a + b := by
  intro l1
  induction l1 with
  | nil => intro l2 h1 h2 r hr; simp at hr
  | cons x xs ih =>
    intro l2 h1 h2 r hr
    cases l2 with
    | nil => simp at hr
    | cons y ys =>
      rw [List.zipWith_cons_cons] at hr
      rcases List.mem_cons.mp hr with rfl | hr2
      · rw [List.length_append, h1 x (List.mem_cons_self x xs),
          h2 y (List.mem_cons_self y ys)]
      · exact ih ys (fun r hr => h1 r (List.mem_cons_of_mem x hr))
          (fun r hr => h2 r (List.mem_cons_of_mem y hr)) r hr2

/-- C8 counterexample: the claim says the entity field of a conversation
batch has width `entity_truncate`; but `_finalize_batch` pads the entity and
word fields with no `max_len`, so with `entity_truncate = 5` and entity lists
`[7]` and `[8, 9]` (both already within the cap, exactly as `conv_batchify`
truncates them) the padded entity tensor has width 2, not 5. -/
theorem entity_field_width_below_truncate :
    (finalize_batch 0 0 0 (some 10) (some 8) [[1], [1]] [[4, 2], [4, 2]] [[1], [1]]
        (conv_entity_rows (some 5) [[7], [8, 9]]) [[3], [3]]).batch_context_entities
      = [[0, 7], [8, 9]] ∧
    ¬ (∀ r ∈ (finalize_batch 0 0 0 (some 10) (some 8) [[1], [1]] [[4, 2], [4, 2]]
          [[1], [1]] (conv_entity_rows (some 5) [[7], [8, 9]])
          [[3], [3]]).batch_context_entities, r.length = 5) := by
  constructor
  · rfl
  · intro hall
    have := hall [0, 7] (by rw [show (finalize_batch 0 0 0 (some 10) (some 8)
      [[1], [1]] [[4, 2], [4, 2]] [[1], [1]] (conv_entity_rows (some 5) [[7], [8, 9]])
      [[3], [3]]).batch_context_entities = [[0, 7], [8, 9]] from rfl]; simp)
    simp at this

/-- C8 (amended): fields padded with an explicit `max_len` — the
conversation context, enhanced context and response (given rows
pre-truncated to the caps, as `conv_batchify` produces them) and all
recommendation-batch fields — have constant width equal to their configured
truncation length, the concatenated input-id fields having width
`context_truncate + response_truncate`; the entity and word fields instead
have constant width equal to the longest entity/word list of the batch,
which is bounded by the corresponding truncation cap but can be smaller;
and every padded row keeps its content intact with pad ids added only on
the padding side, so the pad id never appears among content positions
unless it already occurred in the input sequence. -/
theorem padded_batch_spec (ptok pent pword ct rt : Nat)
    (ctx resp enh ents words : List (List Nat))
    (hctx : ∀ r ∈ ctx, r.length ≤ ct) (hresp : ∀ r ∈ resp, r.length ≤ rt)
    (henh : ∀ r ∈ enh, r.length ≤ ct)
    (cfg : RecBatchCfg) (draws : Nat → Nat) (fuel : Nat)
    (batch : List RecConvDict) (rb : RecBatch) (it : Nat)
    (hct2 : 2 ≤ cfg.context_truncate) (hit : cfg.item_truncate = some it)
    (hit1 : 1 ≤ it) (hrb : rec_batchify cfg draws fuel batch = some rb) :
    (∀ r ∈ (finalize_batch ptok pent pword (some ct) (some rt) ctx resp enh ents
        words).batch_context_tokens, r.length = ct) ∧
    (∀ r ∈ (finalize_batch ptok pent pword (some ct) (some rt) ctx resp enh ents
        words).batch_response, r.length = rt) ∧
    (∀ r ∈ (finalize_batch ptok pent pword (some ct) (some rt) ctx resp enh ents
        words).batch_input_ids, r.length = ct + rt) ∧
    (∀ r ∈ (finalize_batch ptok pent pword (some ct) (some rt) ctx resp enh ents
        words).batch_enhanced_context_tokens, r.length = ct) ∧
    (∀ r ∈ (finalize_batch ptok pent pword (some ct) (some rt) ctx resp enh ents
        words).batch_enhanced_input_ids, r.length = ct + rt) ∧
    (∀ r ∈ (finalize_batch ptok pent pword (some ct) (some rt) ctx resp enh ents
        words).batch_context_entities, r.length = batchMaxLen ents) ∧
    (∀ r ∈ (finalize_batch ptok pent pword (some ct) (some rt) ctx resp enh ents
        words).batch_context_words, r.length = batchMaxLen words) ∧
    (∀ m, (∀ r ∈ ents, r.length ≤ m) → batchMaxLen ents ≤ m) ∧
    (∀ (p t : Nat) (row : List Nat),
      (padRow p false t row).drop (t - row.length) = row ∧
      (∀ x ∈ (padRow p false t row).take (t - row.length), x = p)) ∧
    (∀ (p t : Nat) (row : List Nat),
      (padRow p true t row).take row.length = row ∧
      (∀ x ∈ (padRow p true t row).drop row.length, x = p)) ∧
    (∀ r ∈ rb.batch_context, r.length = cfg.context_truncate) ∧
    (∀ r ∈ rb.batch_mask, r.length = cfg.context_truncate) ∧
    (∀ r ∈ rb.batch_input_ids, r.length = it) ∧
    (∀ r ∈ rb.batch_target_pos, r.length = it) ∧
    (∀ r ∈ rb.batch_input_mask, r.length = it) ∧
    (∀ r ∈ rb.batch_sample_negs, r.length = it) ∧
    rb.batch_movie_id.length = batch.length := by
  have hA : ∀ r ∈ padded_tensor ctx ptok false (some ct), r.length = ct :=
    padded_tensor_some_length ctx ptok false ct hctx
  have hB : ∀ r ∈ padded_tensor resp ptok true (some rt), r.length = rt :=
    padded_tensor_some_length resp ptok true rt hresp
  have hE : ∀ r ∈ padded_tensor enh ptok false (some ct), r.length = ct :=
    padded_tensor_some_length enh ptok false ct henh
  obtain ⟨col, hcol, hrbdef⟩ :
      ∃ col, rec_collect cfg draws fuel batch 0 = some col ∧
        rb = { batch_context := padded_tensor col.1 cfg.pad_token_idx true
                 (some cfg.context_truncate),
               batch_mask := (padded_tensor col.1 cfg.pad_token_idx true
                 (some cfg.context_truncate)).map (fun r =>
                   r.map (fun t => if t = cfg.pad_token_idx then 0 else 1)),
               batch_input_ids := padded_tensor col.2.2.1 cfg.pad_token_idx false
                 cfg.item_truncate,
               batch_target_pos := padded_tensor col.2.2.2.1 cfg.pad_token_idx false
                 cfg.item_truncate,
               batch_input_mask := padded_tensor col.2.2.2.2.1 cfg.pad_token_idx false
                 cfg.item_truncate,
               batch_sample_negs := padded_tensor col.2.2.2.2.2.1 cfg.pad_token_idx false
                 cfg.item_truncate,
               batch_movie_id := col.2.1 } := by
    unfold rec_batchify at hrb
    cases hcol : rec_collect cfg draws fuel batch 0 with
    | none => rw [hcol] at hrb; simp at hrb
    | some col =>
      rw [hcol] at hrb
      simp only [Option.bind_eq_bind, Option.some_bind, Option.some.injEq] at hrb
      exact ⟨col, rfl, hrb.symm⟩
  obtain ⟨hca, hcb, hcc, hcd, hce, hcf⟩ :=
    rec_collect_bounds cfg draws fuel it hct2 hit hit1 batch 0 col hcol
  refine ⟨hA, hB, ?_, hE, ?_, ?_, ?_, fun m hm => batchMaxLen_le ents m hm,
    fun p t row => padRow_head_structure p t row,
    fun p t row => padRow_tail_structure p t row, ?_, ?_, ?_, ?_, ?_, ?_, ?_⟩
  · exact zipWith_append_length ct rt _ _ hA hB
  · exact zipWith_append_length ct rt _ _ hE hB
  · exact padded_tensor_none_length ents pent false
  · exact padded_tensor_none_length words pword false
  · rw [hrbdef]
    exact padded_tensor_some_length col.1 cfg.pad_token_idx true cfg.context_truncate hca
  · rw [hrbdef]
    intro r hr
    simp only [List.mem_map] at hr
    obtain ⟨r0, hr0, rfl⟩ := hr
    rw [List.length_map]
    exact padded_tensor_some_length col.1 cfg.pad_token_idx true cfg.context_truncate
      hca r0 hr0
  · rw [hrbdef]
    simp only [hit]
    exact padded_tensor_some_length _ cfg.pad_token_idx false it hcc
  · rw [hrbdef]
    simp only [hit]
    exact padded_tensor_some_length _ cfg.pad_token_idx false it hcd
  · rw [hrbdef]
    simp only [hit]
    exact padded_tensor_some_length _ cfg.pad_token_idx false it hce
  · rw [hrbdef]
    simp only [hit]
    exact padded_tensor_some_length _ cfg.pad_token_idx false it hcf
  · rw [hrbdef]
    exact hcb

/-- Witness for C8's amended theorem: a one-record recommendation batch with
`context_truncate = 6`, `item_truncate = 3`, and a two-row conversation
batch. -/
theorem padded_batch_check :
    (∀ r ∈ (finalize_batch 0 0 0 (some 10) (some 8) [[1], [1]] [[4, 2], [4, 2]]
        [[1], [1]] [[7], [8, 9]] [[3], [3]]).batch_context_tokens, r.length = 10) ∧
    (∀ r ∈ demoRecBatch.batch_input_ids, r.length = 3) :=
  ⟨(padded_batch_spec 0 0 0 10 8 [[1], [1]] [[4, 2], [4, 2]] [[1], [1]] [[7], [8, 9]]
      [[3], [3]] (by intro r hr; fin_cases hr <;> simp)
      (by intro r hr; fin_cases hr <;> simp)
      (by intro r hr; fin_cases hr <;> simp)
      ⟨0, 1, 2, 3, 6, some 3⟩ (fun _ => 7) 1 [⟨[[5]], 9, none, [4]⟩]
      demoRecBatch 3 (by norm_num) rfl (by norm_num) rfl).1,
   (padded_batch_spec 0 0 0 10 8 [[1], [1]] [[4, 2], [4, 2]] [[1], [1]] [[7], [8, 9]]
      [[3], [3]] (by intro r hr; fin_cases hr <;> simp)
      (by intro r hr; fin_cases hr <;> simp)
      (by intro r hr; fin_cases hr <;> simp)
      ⟨0, 1, 2, 3, 6, some 3⟩ (fun _ => 7) 1 [⟨[[5]], 9, none, [4]⟩]
      demoRecBatch 3 (by norm_num) rfl (by norm_num)
      rfl).2.2.2.2.2.2.2.2.2.2.2.2.1⟩

end CRSLab
